import Mathlib

/-!
Shallow embedding of the panel layout engine of `panelizer.py` (kicad-panelizer,
script version 4.0).  Lengths are fixed-point integers in internal units
(1 mm = `SCALE` units).  Python `int()` on a float is modelled as truncation
toward zero of the exact rational value; Python `range` is modelled on `Int`
(empty for a non-positive count); Python truthiness of optional CLI flags is
modelled explicitly (absent and zero/empty are falsy).
-/

namespace Panelizer

/-- Constant `SCALE = 1000000`: mm to internal units. -/
def SCALE : Int := 1000000

/-- Constant `MIN_RAIL_WIDTH_FOR_TEXT = 2` (mm). -/
def MIN_RAIL_WIDTH_FOR_TEXT : Int := 2

/-- Python `int()` applied to an exact rational value: truncation toward zero. -/
def pyInt (q : ℚ) : Int := if 0 ≤ q then ⌊q⌋ else ⌈q⌉

/-- Python `range(n)` as a list of integers (empty when `n ≤ 0`). -/
def pyRange (n : Int) : List Int := (List.range n.toNat).map (fun i : ℕ => (i : Int))

/-- Python `range(a, b)` as a list of integers (empty when `b ≤ a`). -/
def pyRange2 (a b : Int) : List Int :=
  (List.range (b - a).toNat).map (fun i : ℕ => a + (i : Int))

/-- Python truthiness of an optional integer CLI flag: `None` and `0` are falsy. -/
def truthyInt : Option Int → Bool
  | none => false
  | some v => v != 0

/-- Python truthiness of an optional string CLI flag: `None` and `""` are falsy. -/
def truthyStr : Option String → Bool
  | none => false
  | some s => s != ""

/-- Python `s.startswith(p)`. -/
def pyStartswith (s p : String) : Bool := p.data.isPrefixOf s.data

/-- Python `s.endswith(p)`. -/
def pyEndswith (s p : String) : Bool := p.data.isSuffixOf s.data

/-- The translation vectors generated by the grid loops of `duplicate_board_items`
(`for x in range(num_x): for y in range(num_y): if x != 0 or y != 0:`), in loop
order; each kept copy is moved by `(x * board_width, y * board_height)`. -/
def dupMoves (num_x num_y board_width board_height : Int) : List (Int × Int) :=
  (pyRange num_x).flatMap (fun x =>
    (pyRange num_y).flatMap (fun y =>
      if x ≠ 0 ∨ y ≠ 0 then [(x * board_width, y * board_height)] else []))

/-- `duplicate_board_items` applied to one source item, identified by its position:
every copy is `Duplicate()`d at the source position and then `Move`d by its grid
offset, so the copy positions are the source position plus the offsets. -/
def duplicate_board_items (pos : Int × Int) (num_x num_y board_width board_height : Int) :
    List (Int × Int) :=
  (dupMoves num_x num_y board_width board_height).map (fun m => (pos.1 + m.1, pos.2 + m.2))

/-- Envelope-mode copy count in x:
`num_x = int((panel_x * SCALE - 2 * h_rail_width * SCALE) / board_width)`. -/
def solve_num_x (panel_x h_rail_width board_width : Int) : Int :=
  pyInt (((panel_x * SCALE - 2 * h_rail_width * SCALE : Int) : ℚ) / ((board_width : Int) : ℚ))

/-- Envelope-mode copy count in y:
`num_y = int((panel_y * SCALE - 2 * v_rail_width * SCALE) / board_height)`. -/
def solve_num_y (panel_y v_rail_width board_height : Int) : Int :=
  pyInt (((panel_y * SCALE - 2 * v_rail_width * SCALE : Int) : ℚ) / ((board_height : Int) : ℚ))

/-- The `parts` list built by `get_title_text` from the board's title block. -/
def titleParts (title revision date company : String) : List String :=
  (if title ≠ "" then [title] else []) ++
  (if revision ≠ "" then ["Rev. " ++ revision] else []) ++
  (if date ≠ "" then [date] else []) ++
  (if company ≠ "" then ["(c) " ++ company] else [])

/-- `get_title_text`: join the non-empty title-block parts, with a bare space
before a part starting with `Rev.` or `(c)` and `", "` otherwise; with at most
one part the parts are joined directly (`"".join(parts)`). -/
def get_title_text (title revision date company : String) : String :=
  let parts := titleParts title revision date company
  if parts.length ≤ 1 then String.join parts
  else
    match parts with
    | [] => ""
    | p :: rest =>
      rest.foldl (fun result part =>
        if pyStartswith part "Rev." then result ++ " " ++ part
        else if pyStartswith part "(c)" then result ++ " " ++ part
        else result ++ ", " ++ part) p

/-- Corner coordinates returned by `create_panel_outline`, as exact rationals
(Python float arithmetic modelled exactly). -/
structure OutlineCorners where
  left : ℚ
  right : ℚ
  top : ℚ
  bottom : ℚ

/-- `create_edge_cut`: one border segment; each coordinate goes through `int()`. -/
def create_edge_cut (sx sy ex ey : ℚ) : (Int × Int) × (Int × Int) :=
  ((pyInt sx, pyInt sy), (pyInt ex, pyInt ey))

/-- `create_panel_outline`: the panel border corners
(`left = array_center.x - array_width / 2 - h_rail_width * SCALE - half_padding`
with `half_padding = padding / 2 * SCALE`, and symmetrically) together with the
four border edges in source order: top, right, bottom, left. -/
def create_panel_outline (center_x center_y array_width array_height
    h_rail_width v_rail_width padding : Int) :
    OutlineCorners × List ((Int × Int) × (Int × Int)) :=
  let half_padding : ℚ := (padding : ℚ) / 2 * ((SCALE : Int) : ℚ)
  let left : ℚ := (center_x : ℚ) - (array_width : ℚ) / 2
    - ((h_rail_width * SCALE : Int) : ℚ) - half_padding
  let right : ℚ := (center_x : ℚ) + (array_width : ℚ) / 2
    + ((h_rail_width * SCALE : Int) : ℚ) + half_padding
  let top : ℚ := (center_y : ℚ) - (array_height : ℚ) / 2
    - ((v_rail_width * SCALE : Int) : ℚ) - half_padding
  let bottom : ℚ := (center_y : ℚ) + (array_height : ℚ) / 2
    + ((v_rail_width * SCALE : Int) : ℚ) + half_padding
  (⟨left, right, top, bottom⟩,
    [create_edge_cut left top right top,
     create_edge_cut right top right bottom,
     create_edge_cut right bottom left bottom,
     create_edge_cut left bottom left top])

/-- Index range of the vertical v-score lines in `add_vscores`:
`range(0, num_x + 1)` when `h_rail_width > 0`, else `range(1, num_x)`. -/
def vscore_xrange (h_rail_width num_x : Int) : List Int :=
  if h_rail_width > 0 then pyRange2 0 (num_x + 1) else pyRange2 1 num_x

/-- Index range of the horizontal v-score lines in `add_vscores`:
`range(0, num_y + 1)` when `v_rail_width > 0`, else `range(1, num_y)`. -/
def vscore_yrange (v_rail_width num_y : Int) : List Int :=
  if v_rail_width > 0 then pyRange2 0 (num_y + 1) else pyRange2 1 num_y

/-- The x locations of the vertical v-score lines created by `add_vscores`:
`x_loc = int(panel_center.x - panel_width / 2 + h_rail_width * SCALE + board_width * x)`. -/
def add_vscores_xlocs (panel_center_x panel_width h_rail_width board_width num_x : Int) :
    List Int :=
  (vscore_xrange h_rail_width num_x).map (fun x =>
    pyInt ((panel_center_x : ℚ) - (panel_width : ℚ) / 2
      + ((h_rail_width * SCALE : Int) : ℚ) + ((board_width * x : Int) : ℚ)))

/-- The y locations of the horizontal v-score lines created by `add_vscores`:
`y_loc = int(panel_center.y - panel_height / 2 + v_rail_width * SCALE + board_height * y)`. -/
def add_vscores_ylocs (panel_center_y panel_height v_rail_width board_height num_y : Int) :
    List Int :=
  (vscore_yrange v_rail_width num_y).map (fun y =>
    pyInt ((panel_center_y : ℚ) - (panel_height : ℚ) / 2
      + ((v_rail_width * SCALE : Int) : ℚ) + ((board_height * y : Int) : ℚ)))

/-- The CLI-equivalent configuration consumed by `validate_args` and `main`.
Optional numeric/string flags are absent (`none`) when not supplied. -/
structure Args where
  sourceBoardFile : String
  numx : Option Int
  numy : Option Int
  padding : Int
  panelx : Option Int
  panely : Option Int
  hrail : Int
  vrail : Int
  hrailtext : Option String
  vrailtext : Option String
  htitle : Bool
  vtitle : Bool

/-- The document collaborator's data consumed by `main`: the item lists (each
item identified by its position) and the source board's bounding-box size. -/
structure Board where
  tracks : List (Int × Int)
  drawings : List (Int × Int)
  footprints : List (Int × Int)
  zones : List (Int × Int)
  bboxWidth : Int
  bboxHeight : Int

/-- `validate_args`: the four fatal configuration checks in source order; the
result is the fatal message, or `none` when validation passes. -/
def validate_args (a : Args) : Option String :=
  if ¬ pyEndswith a.sourceBoardFile ".kicad_pcb" then
    some "is not a *.kicad_pcb file. Quitting."
  else if ((truthyStr a.hrailtext || a.htitle) && a.hrail < MIN_RAIL_WIDTH_FOR_TEXT)
      || ((truthyStr a.vrailtext || a.vtitle) && a.vrail < MIN_RAIL_WIDTH_FOR_TEXT) then
    some "Rail width must be at least 2mm if using rail text. Quitting."
  else if (truthyInt a.panelx || truthyInt a.panely) && (truthyInt a.numx || truthyInt a.numy) then
    some "Specify number of boards or size of panel, not both. Quitting."
  else if (!truthyInt a.panelx || !truthyInt a.panely)
      && (!truthyInt a.numx || !truthyInt a.numy) then
    some "Specify number of boards or size of panel. Quitting."
  else none

/-- Output path: `os.path.splitext(source_file)[0] + "_panelized.kicad_pcb"`,
for a source path ending in `.kicad_pcb` (the only paths that reach this point). -/
def outputFile (source_file : String) : String :=
  String.mk (source_file.data.take (source_file.data.length - ".kicad_pcb".data.length))
    ++ "_panelized.kicad_pcb"

/-- Observable outcome of one `main` run: the files persisted by `board.Save`,
the positions of all duplicated copies added to the document, and the fatal
error message if the run exited early. -/
structure RunResult where
  written : List String
  copies : List (Int × Int)
  error : Option String

/-- `main`: validation, cell-size computation, envelope-mode solving, the
zero-fit guard, duplication of all item kinds, and the final save, in source
order.  Every fatal exit precedes duplication and the save. -/
def main (a : Args) (b : Board) : RunResult :=
  match validate_args a with
  | some e => ⟨[], [], some e⟩
  | none =>
    let board_width := b.bboxWidth + a.padding * SCALE
    let board_height := b.bboxHeight + a.padding * SCALE
    let num_x := if truthyInt a.panelx then
        solve_num_x (a.panelx.getD 0) a.hrail board_width
      else a.numx.getD 0
    let num_y := if truthyInt a.panely then
        solve_num_y (a.panely.getD 0) a.vrail board_height
      else a.numy.getD 0
    if num_x = 0 ∨ num_y = 0 then
      ⟨[], [], some "Panel size is too small for board. Quitting."⟩
    else
      let copies := (b.tracks ++ b.drawings ++ b.footprints ++ b.zones).flatMap
        (fun item => duplicate_board_items item num_x num_y board_width board_height)
      ⟨[outputFile a.sourceBoardFile], copies, none⟩

/-! ### Helper lemmas -/

theorem floor_intDiv (a b : Int) (hb : 0 < b) : ⌊(a : ℚ) / (b : ℚ)⌋ = a / b := by
  have hbn : b = ((b.toNat : ℕ) : Int) := (Int.toNat_of_nonneg hb.le).symm
  rw [hbn]
  push_cast
  exact Rat.floor_intCast_div_natCast a b.toNat

theorem pyInt_intDiv (a b : Int) (hb : 0 < b) : pyInt ((a : ℚ) / (b : ℚ)) = a.tdiv b := by
  have hbq : (0 : ℚ) < (b : ℚ) := by exact_mod_cast hb
  rcases le_or_lt 0 a with ha | ha
  · have haq : (0 : ℚ) ≤ (a : ℚ) := by exact_mod_cast ha
    rw [pyInt, if_pos (div_nonneg haq hbq.le), floor_intDiv a b hb,
      Int.tdiv_eq_ediv ha hb.le]
  · have haq : (a : ℚ) < 0 := by exact_mod_cast ha
    have hneg : (a : ℚ) / (b : ℚ) < 0 := div_neg_of_neg_of_pos haq hbq
    rw [pyInt, if_neg (not_le.mpr hneg)]
    have h2 : ((-a : Int) : ℚ) = -(a : ℚ) := by push_cast; ring
    have h1 : ⌈(a : ℚ) / (b : ℚ)⌉ = -(⌊((-a : Int) : ℚ) / (b : ℚ)⌋) := by
      rw [h2, neg_div, Int.floor_neg, neg_neg]
    rw [h1, floor_intDiv (-a) b hb, ← Int.tdiv_eq_ediv (by omega) hb.le,
      Int.neg_tdiv, neg_neg]

theorem pyInt_mono {q r : ℚ} (h : q ≤ r) : pyInt q ≤ pyInt r := by
  unfold pyInt
  rcases le_or_lt 0 q with hq | hq
  · rw [if_pos hq, if_pos (hq.trans h)]
    exact Int.floor_le_floor h
  · rcases le_or_lt 0 r with hr | hr
    · rw [if_neg (not_le.mpr hq), if_pos hr]
      calc ⌈q⌉ ≤ 0 := Int.ceil_le.mpr (by exact_mod_cast hq.le)
        _ ≤ ⌊r⌋ := Int.floor_nonneg.mpr hr
    · rw [if_neg (not_le.mpr hq), if_neg (not_le.mpr hr)]
      exact Int.ceil_le_ceil h

theorem mem_pyRange {a n : Int} : a ∈ pyRange n ↔ 0 ≤ a ∧ a < n := by
  constructor
  · intro h
    rw [pyRange, List.mem_map] at h
    obtain ⟨i, hi, rfl⟩ := h
    rw [List.mem_range] at hi
    omega
  · intro h
    rw [pyRange, List.mem_map]
    exact ⟨a.toNat, List.mem_range.mpr (by omega), by omega⟩

theorem pyRange_length (n : Int) : (pyRange n).length = n.toNat := by
  simp [pyRange]

theorem pyRange_nil {n : Int} (h : n ≤ 0) : pyRange n = [] := by
  have : n.toNat = 0 := by omega
  rw [pyRange, this]
  rfl

theorem pyRange2_length (a b : Int) : (pyRange2 a b).length = (b - a).toNat := by
  simp [pyRange2]

theorem mem_pyRange2 {a s e : Int} : a ∈ pyRange2 s e ↔ s ≤ a ∧ a < e := by
  constructor
  · intro h
    rw [pyRange2, List.mem_map] at h
    obtain ⟨i, hi, rfl⟩ := h
    rw [List.mem_range] at hi
    omega
  · intro h
    rw [pyRange2, List.mem_map]
    exact ⟨(a - s).toNat, List.mem_range.mpr (by omega), by omega⟩

theorem pyRange2_get (a b : Int) (j : ℕ) (hj : j < (pyRange2 a b).length) :
    (pyRange2 a b).get ⟨j, hj⟩ = a + (j : Int) := by
  simp [pyRange2]

theorem length_flatMap' (l : List α) (f : α → List β) :
    (l.flatMap f).length = (l.map (fun a => (f a).length)).sum := by
  simp [List.flatMap, Function.comp_def]

theorem length_flatMap_guard (l : List α) (p : α → Prop) [DecidablePred p] (g : α → β) :
    (l.flatMap (fun a => if p a then [g a] else [])).length
      = l.countP (fun a => decide (p a)) := by
  induction l with
  | nil => simp
  | cons a t ih =>
    by_cases h : p a <;> simp [h, ih, List.countP_cons]

theorem pyRange_eq_cons (n : Int) (hn : 1 ≤ n) :
    pyRange n = 0 :: (List.range (n.toNat - 1)).map (fun i : ℕ => ((i + 1 : ℕ) : Int)) := by
  have h : n.toNat = (n.toNat - 1) + 1 := by omega
  rw [pyRange, h, List.range_succ_eq_map, List.map_cons, List.map_map]
  rfl

theorem dupMoves_length (nx ny bw bh : Int) (hx : 1 ≤ nx) (hy : 1 ≤ ny) :
    ((dupMoves nx ny bw bh).length : Int) = nx * ny - 1 := by
  have inner_len : ∀ x : Int,
      ((pyRange ny).flatMap (fun y =>
        if x ≠ 0 ∨ y ≠ 0 then [(x * bw, y * bh)] else [])).length
        = if x = 0 then ny.toNat - 1 else ny.toNat := by
    intro x
    rw [length_flatMap_guard]
    by_cases hx0 : x = 0
    · subst hx0
      rw [if_pos rfl, pyRange_eq_cons ny hy, List.countP_cons]
      have hhead : (decide ((0:Int) ≠ 0 ∨ (0:Int) ≠ 0)) = false := by decide
      rw [hhead, if_neg (by simp), List.countP_eq_length.mpr, List.length_map,
        List.length_range]
      · omega
      · intro b hb
        rw [List.mem_map] at hb
        obtain ⟨i, _, rfl⟩ := hb
        simp only [decide_eq_true_eq]
        right
        omega
    · rw [if_neg hx0, List.countP_eq_length.mpr, pyRange_length]
      intro b _
      simp only [decide_eq_true_eq]
      left
      exact hx0
  rw [dupMoves, length_flatMap',
    List.map_congr_left (fun x _ => inner_len x), pyRange_eq_cons nx hx,
    List.map_cons, if_pos rfl, List.sum_cons, List.map_map]
  have htail : ((List.range (nx.toNat - 1)).map
      ((fun x : Int => if x = 0 then ny.toNat - 1 else ny.toNat)
        ∘ (fun i : ℕ => ((i + 1 : ℕ) : Int)))).sum = (nx.toNat - 1) * ny.toNat := by
    rw [List.map_congr_left (g := fun _ : ℕ => ny.toNat) ?_, List.map_const',
      List.sum_replicate, List.length_range, smul_eq_mul]
    intro i _
    simp only [Function.comp_apply]
    rw [if_neg (by omega)]
  rw [htail]
  obtain ⟨m, hm⟩ : ∃ m : ℕ, nx = (m : Int) := ⟨nx.toNat, by omega⟩
  obtain ⟨k, hk⟩ : ∃ k : ℕ, ny = (k : Int) := ⟨ny.toNat, by omega⟩
  subst hm
  subst hk
  simp only [Int.toNat_natCast]
  have h1 : 1 ≤ m := by omega
  have h2 : 1 ≤ k := by omega
  push_cast [Nat.cast_sub h1, Nat.cast_sub h2]
  ring

theorem mem_dupMoves {p : Int × Int} {nx ny bw bh : Int} :
    p ∈ dupMoves nx ny bw bh ↔
      ∃ x y : Int, 0 ≤ x ∧ x < nx ∧ 0 ≤ y ∧ y < ny ∧ (x ≠ 0 ∨ y ≠ 0)
        ∧ p = (x * bw, y * bh) := by
  simp only [dupMoves, List.mem_flatMap, mem_pyRange]
  constructor
  · rintro ⟨x, hx, y, hy, hm⟩
    by_cases hc : x ≠ 0 ∨ y ≠ 0
    · rw [if_pos hc, List.mem_singleton] at hm
      exact ⟨x, y, hx.1, hx.2, hy.1, hy.2, hc, hm⟩
    · rw [if_neg hc] at hm
      simp at hm
  · rintro ⟨x, y, h1, h2, h3, h4, hc, rfl⟩
    refine ⟨x, ⟨h1, h2⟩, y, ⟨h3, h4⟩, ?_⟩
    rw [if_pos hc]
    exact List.mem_singleton_self _

theorem dupMoves_nil_of_neg {nx ny bw bh : Int} (h : nx ≤ 0) :
    dupMoves nx ny bw bh = [] := by
  rw [dupMoves, pyRange_nil h]
  rfl

/-! ### Claim theorems -/

/-- C1: for every source item and all positive copy counts `num_x, num_y`,
`duplicate_board_items` produces exactly `num_x * num_y - 1` new copies of that
item — one for each grid index pair `(x, y)` with `x ∈ [0, num_x)`,
`y ∈ [0, num_y)` except `(0, 0)` — and each copy is translated from the source
by exactly `(x * board_width, y * board_height)`. -/
theorem claim_C1 (pos : Int × Int) (nx ny bw bh : Int) (hx : 1 ≤ nx) (hy : 1 ≤ ny) :
    ((duplicate_board_items pos nx ny bw bh).length : Int) = nx * ny - 1 ∧
    (∀ p : Int × Int, p ∈ duplicate_board_items pos nx ny bw bh ↔
      ∃ x y : Int, 0 ≤ x ∧ x < nx ∧ 0 ≤ y ∧ y < ny ∧ (x ≠ 0 ∨ y ≠ 0)
        ∧ p = (pos.1 + x * bw, pos.2 + y * bh)) := by
  constructor
  · rw [duplicate_board_items, List.length_map]
    exact dupMoves_length nx ny bw bh hx hy
  · intro p
    rw [duplicate_board_items, List.mem_map]
    constructor
    · rintro ⟨m, hm, rfl⟩
      rw [mem_dupMoves] at hm
      obtain ⟨x, y, h1, h2, h3, h4, hc, rfl⟩ := hm
      exact ⟨x, y, h1, h2, h3, h4, hc, rfl⟩
    · rintro ⟨x, y, h1, h2, h3, h4, hc, rfl⟩
      exact ⟨(x * bw, y * bh), mem_dupMoves.mpr ⟨x, y, h1, h2, h3, h4, hc, rfl⟩, rfl⟩

/-- Witness for C1 at a concrete input: a 2×2 grid yields 3 copies. -/
theorem claim_C1_witness :
    (1 : Int) ≤ 2 ∧ ((duplicate_board_items (10, 20) 2 2 5 7).length : Int) = 2 * 2 - 1 :=
  ⟨by decide, (claim_C1 (10, 20) 2 2 5 7 (by decide) (by decide)).1⟩

/-- C2: the number of planned vertical score lines is gated by the horizontal
rail width — `num_x + 1` lines when `h_rail_width > 0` and `num_x - 1` interior
lines when `h_rail_width = 0` — each at
`x_loc = panel.left + h_rail_width * SCALE + board_width * i`; the symmetric
rule holds for horizontal lines with `v_rail_width` and `num_y`; in particular
`num_x = 3` yields exactly 2 vertical lines with `h_rail_width = 0` and exactly
4 with `h_rail_width = 2`. -/
theorem claim_C2 (cx pw cy ph h v bw bh nx ny : Int) (hx : 1 ≤ nx) (hy : 1 ≤ ny) :
    ((0 < h → ((add_vscores_xlocs cx pw h bw nx).length : Int) = nx + 1) ∧
     (h = 0 → ((add_vscores_xlocs cx pw h bw nx).length : Int) = nx - 1)) ∧
    (∀ xv : Int, xv ∈ add_vscores_xlocs cx pw h bw nx ↔
      ∃ i : Int, (if 0 < h then 0 ≤ i ∧ i < nx + 1 else 1 ≤ i ∧ i < nx) ∧
        xv = pyInt ((cx : ℚ) - (pw : ℚ) / 2 + ((h * SCALE : Int) : ℚ)
          + ((bw * i : Int) : ℚ))) ∧
    ((0 < v → ((add_vscores_ylocs cy ph v bh ny).length : Int) = ny + 1) ∧
     (v = 0 → ((add_vscores_ylocs cy ph v bh ny).length : Int) = ny - 1)) ∧
    ((add_vscores_xlocs cx pw 0 bw 3).length = 2 ∧
     (add_vscores_xlocs cx pw 2 bw 3).length = 4) := by
  refine ⟨⟨?_, ?_⟩, ?_, ⟨?_, ?_⟩, ?_, ?_⟩
  · intro hh
    rw [add_vscores_xlocs, List.length_map, vscore_xrange, if_pos hh, pyRange2_length]
    omega
  · intro hh
    subst hh
    rw [add_vscores_xlocs, List.length_map, vscore_xrange, if_neg (by omega),
      pyRange2_length]
    omega
  · intro xv
    rw [add_vscores_xlocs, List.mem_map, vscore_xrange]
    by_cases hh : 0 < h
    · simp only [if_pos hh]
      constructor
      · rintro ⟨i, hi, rfl⟩
        exact ⟨i, mem_pyRange2.mp hi, rfl⟩
      · rintro ⟨i, hi, rfl⟩
        exact ⟨i, mem_pyRange2.mpr hi, rfl⟩
    · simp only [if_neg hh]
      constructor
      · rintro ⟨i, hi, rfl⟩
        exact ⟨i, mem_pyRange2.mp hi, rfl⟩
      · rintro ⟨i, hi, rfl⟩
        exact ⟨i, mem_pyRange2.mpr hi, rfl⟩
  · intro hv
    rw [add_vscores_ylocs, List.length_map, vscore_yrange, if_pos hv, pyRange2_length]
    omega
  · intro hv
    subst hv
    rw [add_vscores_ylocs, List.length_map, vscore_yrange, if_neg (by omega),
      pyRange2_length]
    omega
  · rw [add_vscores_xlocs, List.length_map, vscore_xrange, if_neg (by omega),
      pyRange2_length]
    rfl
  · rw [add_vscores_xlocs, List.length_map, vscore_xrange, if_pos (by omega),
      pyRange2_length]
    rfl

/-- Witness for C2 at a concrete input: with `num_x = num_y = 3`, no horizontal
rail and a 2 mm vertical rail, 2 vertical and 4 horizontal lines are planned. -/
theorem claim_C2_witness :
    (1 : Int) ≤ 3 ∧
    ((add_vscores_xlocs 0 100 0 7 3).length : Int) = 3 - 1 ∧
    ((add_vscores_ylocs 0 100 2 9 3).length : Int) = 3 + 1 := by
  refine ⟨by decide, ?_, ?_⟩
  · exact (claim_C2 0 100 0 100 0 2 7 9 3 3 (by decide) (by decide)).1.2 rfl
  · exact (claim_C2 0 100 0 100 0 2 7 9 3 3 (by decide) (by decide)).2.2.1.1 (by decide)

/-- C3 counterexample: with `panel_x = 1`, `h_rail_width = 1` and
`board_width = 2·SCALE`, the code computes `num_x = 0` while the claimed floor
of the quotient is `-1`, so the claimed floor formula does not hold. -/
theorem claim_C3_counterexample :
    solve_num_x 1 1 (2 * SCALE) = 0 ∧
    ⌊((1 * SCALE - 2 * 1 * SCALE : Int) : ℚ) / ((2 * SCALE : Int) : ℚ)⌋ = -1 := by
  constructor
  · rw [solve_num_x, pyInt_intDiv _ _ (by decide)]
    decide
  · rw [floor_intDiv _ _ (by decide)]
    decide

/-- C3 (amended): in envelope mode the solver computes
`num_x = int((panel_x·SCALE - 2·h_rail_width·SCALE) / cell.width)` where `int`
truncates toward zero (Int.tdiv), which agrees with the claimed floor exactly
when `panel_x ≥ 2·h_rail_width`; symmetrically for `num_y`; all lengths are
converted to internal units (SCALE per mm) before the division. -/
theorem claim_C3_amended (px h bw py v bh : Int) (hbw : 0 < bw) (hbh : 0 < bh) :
    solve_num_x px h bw = (px * SCALE - 2 * h * SCALE).tdiv bw ∧
    (0 ≤ px - 2 * h → solve_num_x px h bw
      = ⌊((px * SCALE - 2 * h * SCALE : Int) : ℚ) / ((bw : Int) : ℚ)⌋) ∧
    solve_num_y py v bh = (py * SCALE - 2 * v * SCALE).tdiv bh ∧
    (0 ≤ py - 2 * v → solve_num_y py v bh
      = ⌊((py * SCALE - 2 * v * SCALE : Int) : ℚ) / ((bh : Int) : ℚ)⌋) := by
  have hnum : ∀ p r : Int, 0 ≤ p - 2 * r → 0 ≤ p * SCALE - 2 * r * SCALE := by
    intro p r hpr
    have hs : (0 : Int) ≤ SCALE := by decide
    have : p * SCALE - 2 * r * SCALE = (p - 2 * r) * SCALE := by ring
    rw [this]
    exact mul_nonneg hpr hs
  refine ⟨?_, ?_, ?_, ?_⟩
  · rw [solve_num_x, pyInt_intDiv _ _ hbw]
  · intro hpr
    have h1 := hnum px h hpr
    have h2 : (0 : ℚ) ≤ ((px * SCALE - 2 * h * SCALE : Int) : ℚ) / ((bw : Int) : ℚ) :=
      div_nonneg (by exact_mod_cast h1) (by exact_mod_cast hbw.le)
    rw [solve_num_x, pyInt, if_pos h2]
  · rw [solve_num_y, pyInt_intDiv _ _ hbh]
  · intro hpr
    have h1 := hnum py v hpr
    have h2 : (0 : ℚ) ≤ ((py * SCALE - 2 * v * SCALE : Int) : ℚ) / ((bh : Int) : ℚ) :=
      div_nonneg (by exact_mod_cast h1) (by exact_mod_cast hbh.le)
    rw [solve_num_y, pyInt, if_pos h2]

/-- Witness for C3 (amended) at a concrete input: a 10 mm envelope with 1 mm
rails over a 2 mm cell gives `num_x = 4`, matching truncating division. -/
theorem claim_C3_amended_witness :
    (0 : Int) < 2 * SCALE ∧
    solve_num_x 10 1 (2 * SCALE) = (10 * SCALE - 2 * 1 * SCALE).tdiv (2 * SCALE) :=
  ⟨by decide, (claim_C3_amended 10 1 (2 * SCALE) 10 1 (2 * SCALE)
    (by decide) (by decide)).1⟩

/-- C4 counterexample: supplying both sizing modes with zero-valued envelope
flags (`panelx = 0`, `panely = 0`, `numx = 1`, `numy = 1`) is accepted by
`validate_args` without any fatal configuration error, because Python
truthiness treats a supplied zero like an absent flag. -/
theorem claim_C4_counterexample :
    validate_args ⟨"b.kicad_pcb", some 1, some 1, 1, some 0, some 0, 0, 0,
      none, none, false, false⟩ = none := by
  decide

/-- C4 (amended): envelope mode and explicit-count mode are mutually exclusive
and jointly exhaustive under Python truthiness, where a zero-valued flag counts
as not supplied: whenever some flag of each mode is truthy, or some flag of
each mode is absent-or-zero, `validate_args` reports a fatal error. -/
theorem claim_C4_amended (a : Args)
    (hcond : ((truthyInt a.panelx || truthyInt a.panely)
        && (truthyInt a.numx || truthyInt a.numy)) = true
      ∨ ((!truthyInt a.panelx || !truthyInt a.panely)
        && (!truthyInt a.numx || !truthyInt a.numy)) = true) :
    validate_args a ≠ none := by
  intro hnone
  rw [validate_args] at hnone
  split at hnone
  · exact Option.some_ne_none _ hnone
  · split at hnone
    · exact Option.some_ne_none _ hnone
    · split at hnone
      · exact Option.some_ne_none _ hnone
      · split at hnone
        · exact Option.some_ne_none _ hnone
        · rename_i hc1 hc2
          rcases hcond with hcond | hcond
          · exact hc1 hcond
          · exact hc2 hcond

/-- Witness for C4 (amended) at a concrete input: both modes supplied with
nonzero values triggers a fatal error. -/
theorem claim_C4_amended_witness :
    ((truthyInt (some 5) || truthyInt (some 5)) && (truthyInt (some 1) || truthyInt (some 1)))
      = true ∧
    validate_args ⟨"b.kicad_pcb", some 1, some 1, 1, some 5, some 5, 0, 0,
      none, none, false, false⟩ ≠ none :=
  ⟨by decide,
    claim_C4_amended ⟨"b.kicad_pcb", some 1, some 1, 1, some 5, some 5, 0, 0,
      none, none, false, false⟩ (Or.inl (by decide))⟩

/-- C6: title synthesis with title "Widget", revision "B", empty date and
company "Acme" yields exactly "Widget Rev. B (c) Acme" (bare space before the
revision and company parts), and a title block containing only a title yields
exactly that title with no trailing punctuation. -/
theorem claim_C6 :
    get_title_text "Widget" "B" "" "Acme" = "Widget Rev. B (c) Acme" ∧
    ∀ t : String, get_title_text t "" "" "" = t := by
  constructor
  · decide
  · intro t
    by_cases ht : t = ""
    · subst ht
      rfl
    · rw [get_title_text, titleParts]
      simp [ht, String.join]

/-- C7 counterexample: with exactly one non-empty field (fewer than two), the
synthesized title string is the single formatted part, not the empty string
the claim demands. -/
theorem claim_C7_counterexample :
    get_title_text "Widget" "" "" "" = "Widget" ∧ ("Widget" : String) ≠ "" := by
  constructor
  · decide
  · decide

/-- C7 (amended): if fewer than two of the four title-block fields are
non-empty, no separators are applied and the result is just the concatenation
of the zero or one formatted parts (so it is empty only when every field is
empty, and otherwise equals the single formatted field). -/
theorem claim_C7_amended (t r d c : String)
    (hcount : ((if t ≠ "" then 1 else 0) + (if r ≠ "" then 1 else 0)
      + (if d ≠ "" then 1 else 0) + (if c ≠ "" then 1 else 0) : ℕ) ≤ 1) :
    get_title_text t r d c
      = (if t ≠ "" then t else "") ++ (if r ≠ "" then "Rev. " ++ r else "")
        ++ (if d ≠ "" then d else "") ++ (if c ≠ "" then "(c) " ++ c else "") := by
  rw [get_title_text, titleParts]
  by_cases h1 : t = "" <;> by_cases h2 : r = "" <;>
    by_cases h3 : d = "" <;> by_cases h4 : c = "" <;>
    simp [h1, h2, h3, h4, String.join] at hcount ⊢

/-- Witness for C7 (amended) at a concrete input: a lone title field passes
through unchanged. -/
theorem claim_C7_amended_witness : get_title_text "Widget" "" "" "" = "Widget" := by
  rw [claim_C7_amended "Widget" "" "" "" (by decide)]
  decide

/-- C8: envelope-mode solving is monotonic — for a fixed cell size and fixed
rail widths, increasing the target panel envelope dimension never decreases the
resulting `num_x` or `num_y`. -/
theorem claim_C8 (h v bw bh px px' py py' : Int) (hbw : 0 < bw) (hbh : 0 < bh)
    (hx : px ≤ px') (hy : py ≤ py') :
    solve_num_x px h bw ≤ solve_num_x px' h bw ∧
    solve_num_y py v bh ≤ solve_num_y py' v bh := by
  have hmul : ∀ p p' r : Int, p ≤ p' →
      (p * SCALE - 2 * r * SCALE : Int) ≤ (p' * SCALE - 2 * r * SCALE : Int) := by
    intro p p' r hpp
    have hs := mul_le_mul_of_nonneg_right hpp (by decide : (0 : Int) ≤ SCALE)
    omega
  constructor
  · rw [solve_num_x, solve_num_x]
    apply pyInt_mono
    apply div_le_div_of_nonneg_right ?_ (by exact_mod_cast hbw.le)
    exact_mod_cast hmul px px' h hx
  · rw [solve_num_y, solve_num_y]
    apply pyInt_mono
    apply div_le_div_of_nonneg_right ?_ (by exact_mod_cast hbh.le)
    exact_mod_cast hmul py py' v hy

/-- Witness for C8 at a concrete input: growing the envelope from 4 mm to
10 mm cannot shrink the computed counts. -/
theorem claim_C8_witness :
    (0 : Int) < 2 * SCALE ∧ (4 : Int) ≤ 10 ∧
    solve_num_x 4 0 (2 * SCALE) ≤ solve_num_x 10 0 (2 * SCALE) :=
  ⟨by decide, by decide,
    (claim_C8 0 0 (2 * SCALE) (2 * SCALE) 4 10 4 10
      (by decide) (by decide) (by decide) (by decide)).1⟩

/-- C9: the panel border corners are computed as
`left = center.x - array_width/2 - h_rail*SCALE - padding/2*SCALE` and
symmetrically for right/top/bottom (top/bottom using the vertical rail width);
consequently with zero rails and zero padding the emitted border is exactly the
tight bounding rectangle of the duplicated array, with zero additional offset
on any side. -/
theorem claim_C9 (cx cy aw ah h v p : Int) :
    ((create_panel_outline cx cy aw ah h v p).1.left
        = (cx : ℚ) - (aw : ℚ) / 2 - (h : ℚ) * ((SCALE : Int) : ℚ)
          - (p : ℚ) / 2 * ((SCALE : Int) : ℚ) ∧
     (create_panel_outline cx cy aw ah h v p).1.right
        = (cx : ℚ) + (aw : ℚ) / 2 + (h : ℚ) * ((SCALE : Int) : ℚ)
          + (p : ℚ) / 2 * ((SCALE : Int) : ℚ) ∧
     (create_panel_outline cx cy aw ah h v p).1.top
        = (cy : ℚ) - (ah : ℚ) / 2 - (v : ℚ) * ((SCALE : Int) : ℚ)
          - (p : ℚ) / 2 * ((SCALE : Int) : ℚ) ∧
     (create_panel_outline cx cy aw ah h v p).1.bottom
        = (cy : ℚ) + (ah : ℚ) / 2 + (v : ℚ) * ((SCALE : Int) : ℚ)
          + (p : ℚ) / 2 * ((SCALE : Int) : ℚ)) ∧
    ((create_panel_outline cx cy aw ah 0 0 0).1.left = (cx : ℚ) - (aw : ℚ) / 2 ∧
     (create_panel_outline cx cy aw ah 0 0 0).1.right = (cx : ℚ) + (aw : ℚ) / 2 ∧
     (create_panel_outline cx cy aw ah 0 0 0).1.top = (cy : ℚ) - (ah : ℚ) / 2 ∧
     (create_panel_outline cx cy aw ah 0 0 0).1.bottom = (cy : ℚ) + (ah : ℚ) / 2) := by
  refine ⟨⟨?_, ?_, ?_, ?_⟩, ?_, ?_, ?_, ?_⟩ <;>
    simp only [create_panel_outline] <;> push_cast <;> ring

/-- C5: the pipeline is atomic with respect to fatal errors — for every
configuration and board, either the run reports no fatal error and exactly one
output document is persisted, or it reports a fatal error and no output is
written at all. -/
theorem claim_C5 (a : Args) (b : Board) :
    ((main a b).error = none ∧ (main a b).written = [outputFile a.sourceBoardFile])
    ∨ ((main a b).error ≠ none ∧ (main a b).written = []) := by
  cases hval : validate_args a with
  | some e =>
    right
    simp [main, hval]
  | none =>
    simp only [main, hval]
    split <;> split <;> split <;> simp

/-- C10 (amended): in envelope mode, when `2 * h_rail_width` exceeds `panel_x`
by at least one cell width, the computed `num_x` is strictly negative, so the
equality-only zero-fit guard does not fire; provided the computed `num_y` is
also nonzero, the duplication loops run zero iterations (producing no copies)
and the run still writes the output document. -/
theorem claim_C10 (a : Args) (b : Board) (px : Int)
    (hval : validate_args a = none)
    (hpx : a.panelx = some px)
    (hpx0 : px ≠ 0)
    (hbw : 0 < b.bboxWidth + a.padding * SCALE)
    (hsmall : px * SCALE - 2 * a.hrail * SCALE ≤ -(b.bboxWidth + a.padding * SCALE))
    (hny : (if truthyInt a.panely then
        solve_num_y (a.panely.getD 0) a.vrail (b.bboxHeight + a.padding * SCALE)
      else a.numy.getD 0) ≠ 0) :
    solve_num_x px a.hrail (b.bboxWidth + a.padding * SCALE) < 0 ∧
    (main a b).error = none ∧
    (main a b).copies = [] ∧
    (main a b).written = [outputFile a.sourceBoardFile] := by
  have hneg : solve_num_x px a.hrail (b.bboxWidth + a.padding * SCALE) < 0 := by
    rw [solve_num_x, pyInt_intDiv _ _ hbw]
    have hNneg : px * SCALE - 2 * a.hrail * SCALE < 0 := by omega
    have h2 : 1 ≤ (-(px * SCALE - 2 * a.hrail * SCALE)) / (b.bboxWidth + a.padding * SCALE) :=
      Int.le_ediv_of_mul_le hbw (by omega)
    have h3 : (-(px * SCALE - 2 * a.hrail * SCALE)).tdiv (b.bboxWidth + a.padding * SCALE)
        = (-(px * SCALE - 2 * a.hrail * SCALE)) / (b.bboxWidth + a.padding * SCALE) :=
      Int.tdiv_eq_ediv (by omega) hbw.le
    have h4 := Int.neg_tdiv (px * SCALE - 2 * a.hrail * SCALE) (b.bboxWidth + a.padding * SCALE)
    omega
  have htx : truthyInt a.panelx = true := by
    rw [hpx]
    simp [truthyInt, hpx0]
  have hgetD : a.panelx.getD 0 = px := by rw [hpx]; rfl
  have hnum_x : (if truthyInt a.panelx then
      solve_num_x (a.panelx.getD 0) a.hrail (b.bboxWidth + a.padding * SCALE)
    else a.numx.getD 0) = solve_num_x px a.hrail (b.bboxWidth + a.padding * SCALE) := by
    rw [if_pos htx, hgetD]
  have hguard : ¬ ((if truthyInt a.panelx then
      solve_num_x (a.panelx.getD 0) a.hrail (b.bboxWidth + a.padding * SCALE)
    else a.numx.getD 0) = 0 ∨ (if truthyInt a.panely then
      solve_num_y (a.panely.getD 0) a.vrail (b.bboxHeight + a.padding * SCALE)
    else a.numy.getD 0) = 0) := by
    rw [hnum_x]
    push_neg
    exact ⟨by omega, hny⟩
  have hcopies : ((b.tracks ++ b.drawings ++ b.footprints ++ b.zones).flatMap
      (fun item => duplicate_board_items item
        (if truthyInt a.panelx then
          solve_num_x (a.panelx.getD 0) a.hrail (b.bboxWidth + a.padding * SCALE)
        else a.numx.getD 0)
        (if truthyInt a.panely then
          solve_num_y (a.panely.getD 0) a.vrail (b.bboxHeight + a.padding * SCALE)
        else a.numy.getD 0)
        (b.bboxWidth + a.padding * SCALE) (b.bboxHeight + a.padding * SCALE))) = [] := by
    rw [List.flatMap_eq_nil_iff]
    intro item _
    rw [duplicate_board_items, hnum_x, dupMoves_nil_of_neg (by omega)]
    rfl
  refine ⟨hneg, ?_, ?_, ?_⟩ <;>
    simp only [main, hval] <;>
    rw [if_neg hguard]
  · exact hcopies

/-- C10 counterexample: the claim as stated fails when the other axis computes
to zero — with `panel_x = 1`, `h_rail = 2`, a 3 mm cell (so `2*h_rail` exceeds
`panel_x` by one cell width) but `panel_y = 1` over a 2 mm cell, `num_y = 0`,
the zero-fit guard fires and no output document is written. -/
theorem claim_C10_counterexample :
    (1 * SCALE - 2 * 2 * SCALE ≤ -(3 * SCALE + 0 * SCALE)) ∧
    (main ⟨"b.kicad_pcb", none, none, 0, some 1, some 1, 2, 0, none, none, false, false⟩
        ⟨[], [], [], [], 3 * SCALE, 2 * SCALE⟩).written = [] ∧
    (main ⟨"b.kicad_pcb", none, none, 0, some 1, some 1, 2, 0, none, none, false, false⟩
        ⟨[], [], [], [], 3 * SCALE, 2 * SCALE⟩).error ≠ none := by
  have hval : validate_args
      ⟨"b.kicad_pcb", none, none, 0, some 1, some 1, 2, 0, none, none, false, false⟩
      = none := by decide
  have hy : solve_num_y 1 0 (2 * SCALE + 0 * SCALE) = 0 := by
    rw [solve_num_y, pyInt_intDiv _ _ (by decide)]
    decide
  refine ⟨by decide, ?_, ?_⟩
  · simp only [main, hval]
    rw [if_pos (Or.inr (by simpa [truthyInt] using hy))]
  · simp only [main, hval]
    rw [if_pos (Or.inr (by simpa [truthyInt] using hy))]
    simp

/-- Witness for C10 at a concrete input: a 1 mm envelope with 2 mm horizontal
rails over a 3 mm cell passes the guard (num_x = -1, num_y = 2), duplicates
nothing, and still writes the output. -/
theorem claim_C10_witness :
    (main ⟨"b.kicad_pcb", none, none, 0, some 1, some 1, 2, 0, none, none, false, false⟩
        ⟨[], [], [], [], 3 * SCALE, 500000⟩).error = none ∧
    (main ⟨"b.kicad_pcb", none, none, 0, some 1, some 1, 2, 0, none, none, false, false⟩
        ⟨[], [], [], [], 3 * SCALE, 500000⟩).copies = [] := by
  have hny : solve_num_y 1 0 (500000 + 0 * SCALE) ≠ 0 := by
    rw [solve_num_y, pyInt_intDiv _ _ (by decide)]
    decide
  have h := claim_C10
    ⟨"b.kicad_pcb", none, none, 0, some 1, some 1, 2, 0, none, none, false, false⟩
    ⟨[], [], [], [], 3 * SCALE, 500000⟩ 1 (by decide) rfl (by decide) (by decide)
    (by decide) (by simpa [truthyInt] using hny)
  exact ⟨h.2.1, h.2.2.1⟩

end Panelizer
